import Mathlib

/-!
Verification of the StreamHive media pipeline (transcoder service and
playback service) against its design specification.

Strings of the Go source are modelled as `List Char`; the Go standard
library functions used by the code (`strings.SplitN`, `strings.Split`,
`strings.TrimPrefix`, `strings.TrimSuffix`, `strings.TrimRight`,
`strings.Contains`, `strings.HasPrefix`, `strings.HasSuffix`) are given
executable models below, and each source function under scrutiny
(`buildMaster`, `extractBlobPath`, `blobBase`, `allowedRendition`,
`Transcoder.Handle`, the four playback handlers and the master-manifest
rewrite) is translated from the Go source on top of them.  External
effects (object storage, database, message queue, cache store, the
ffmpeg processes) are modelled by explicit state passed to the
functions, and the handlers return both their response and the trace of
effects they performed.
-/

/-- Go strings, modelled as lists of characters. -/
abbrev GoStr := List Char

/-- Coerce a Lean string literal to the `GoStr` model. -/
def gs (x : String) : GoStr := x.toList

/-! ## Models of the Go `strings` functions used by the source -/

/-- Split a string at the first occurrence of `sep`
(`none` when `sep` does not occur).  This is the engine behind the
models of `strings.Contains` and `strings.SplitN(s, sep, 2)`. -/
def splitFirst (sep : GoStr) : GoStr → Option (GoStr × GoStr)
  | [] => if sep.isEmpty then some ([], []) else none
  | a :: t =>
    if sep.isPrefixOf (a :: t) then some ([], (a :: t).drop sep.length)
    else (splitFirst sep t).map fun p => (a :: p.1, p.2)

/-- Go `strings.Contains(s, sub)`. -/
def gContains (s sub : GoStr) : Bool := (splitFirst sub s).isSome

/-- Go `strings.TrimPrefix(s, pre)`: drop `pre` from the front when present. -/
def trimPrefixG (s pre : GoStr) : GoStr :=
  if pre.isPrefixOf s then s.drop pre.length else s

/-- Go `strings.TrimSuffix(s, suf)`: drop `suf` from the end when present. -/
def gTrimSuffix (s suf : GoStr) : GoStr :=
  if suf.isSuffixOf s then s.take (s.length - suf.length) else s

/-- Go `strings.TrimRight(s, "/")`: drop all trailing slashes. -/
def gTrimRightSlash (s : GoStr) : GoStr :=
  (s.reverse.dropWhile (· == '/')).reverse

/-- Split a string at the first occurrence of the character `c`. -/
def breakAtChar (c : Char) : GoStr → Option (GoStr × GoStr)
  | [] => none
  | a :: t =>
    if a = c then some ([], t)
    else (breakAtChar c t).map fun p => (a :: p.1, p.2)

/-- Go `strings.SplitN(s, string(c), n)` for a one-character separator:
at most `n` pieces, the last piece keeping the unsplit remainder. -/
def splitNChar (c : Char) : Nat → GoStr → List GoStr
  | 0, _ => []
  | 1, s => [s]
  | n + 2, s =>
    match breakAtChar c s with
    | none => [s]
    | some (a, b) => a :: splitNChar c (n + 1) b

/-- Go `strings.Split(s, string(c))` (no piece limit). -/
def splitChar (c : Char) (s : GoStr) : List GoStr := s.splitOn c

/-- Decimal rendering of a natural number, as Go's `fmt.Sprintf("%d", n)`. -/
def natToChars (n : Nat) : GoStr := Nat.toDigits 10 n

/-! ## Transcoder service: master-manifest synthesis (`buildMaster`) -/

/-- The default resolution ladder of `Transcoder.Handle` and `buildMaster`. -/
def defaultLadder : List GoStr := [gs "1080p", gs "720p", gs "480p", gs "360p"]

/-- The `bw` bandwidth map of `buildMaster` (Go map lookup misses give 0). -/
def bwTable (r : GoStr) : Nat :=
  if r = gs "1080p" then 5192000
  else if r = gs "720p" then 2928000
  else if r = gs "480p" then 1496000
  else if r = gs "360p" then 864000
  else 0

/-- The `resMap` resolution map of `buildMaster` (misses give the empty string). -/
def resTable (r : GoStr) : GoStr :=
  if r = gs "1080p" then gs "1920x1080"
  else if r = gs "720p" then gs "1280x720"
  else if r = gs "480p" then gs "854x480"
  else if r = gs "360p" then gs "640x360"
  else []

/-- One loop iteration of `buildMaster`: the `#EXT-X-STREAM-INF` line and the
variant-reference line appended for rendition `r`. -/
def masterEntry (r : GoStr) : GoStr :=
  gs "#EXT-X-STREAM-INF:BANDWIDTH=" ++ natToChars (bwTable r) ++
    gs ",RESOLUTION=" ++ resTable r ++ gs "\n" ++ r ++ gs "/index.m3u8\n"

/-- Translation of `buildMaster` (s3.go): header, then one entry per ladder
element, with an empty ladder replaced by the default ladder. -/
def buildMaster (userId uploadId : GoStr) (ladder : List GoStr) : GoStr :=
  let ladder := if ladder = [] then defaultLadder else ladder
  ladder.foldl (fun s r => s ++ masterEntry r) (gs "#EXTM3U\n")

/-- The entry shape asserted by the specification for a ladder label: a
stream line carrying the BANDWIDTH value of the spec's fixed table
(720p: 2928000, 360p: 864000, 1080p: 5192000, 480p: 1496000) followed by
the reference line `label/index.m3u8`. -/
def claimBandwidth (r : GoStr) : Nat :=
  if r = gs "720p" then 2928000
  else if r = gs "360p" then 864000
  else if r = gs "1080p" then 5192000
  else if r = gs "480p" then 1496000
  else 0

/-- The manifest entry the specification promises for label `r`. -/
def claimEntry (r : GoStr) : GoStr :=
  gs "#EXT-X-STREAM-INF:BANDWIDTH=" ++ natToChars (claimBandwidth r) ++
    gs ",RESOLUTION=" ++ resTable r ++ gs "\n" ++ r ++ gs "/index.m3u8\n"

/-! ## Playback service: blob-path resolution (`extractBlobPath`, `blobBase`) -/

/-- The cloud-provider host marker tested first by `extractBlobPath`. -/
def azMarker : GoStr := gs ".blob.core.windows.net/"

/-- Translation of `Handler.extractBlobPath` (handler.go): first the
cloud-provider URL pattern (path after the `.blob.core.windows.net/` host
segment, bucket stripped as a leading segment when present), then the generic
`http(s)://host[:port]/bucket/path` pattern (split on `/`, host and bucket
dropped), then the already-relative fallback (leading `/` stripped).
`strings.Contains` together with `strings.SplitN(url, marker, 2)` is modelled
by the single first-occurrence split `splitFirst`. -/
def extractBlobPath (bucket url : GoStr) : GoStr :=
  match splitFirst azMarker url with
  | some (_, after) => trimPrefixG (trimPrefixG after (bucket ++ gs "/")) (gs "/")
  | none =>
    if (gs "http://").isPrefixOf url || (gs "https://").isPrefixOf url then
      let parts := splitNChar '/' 4 url
      if parts.length ≥ 4 then
        trimPrefixG (trimPrefixG (parts.getD 3 []) (bucket ++ gs "/")) (gs "/")
      else trimPrefixG url (gs "/")
    else trimPrefixG url (gs "/")

/-- Translation of `Handler.blobBase`: resolved blob path of the master
manifest with the trailing `/master.m3u8` removed. -/
def blobBase (bucket masterURL : GoStr) : GoStr :=
  gTrimSuffix (extractBlobPath bucket masterURL) (gs "/master.m3u8")

/-- Translation of `baseHLSPath` (public mode): strip `/master.m3u8`. -/
def baseHLSPath (master : GoStr) : GoStr :=
  gTrimSuffix master (gs "/master.m3u8")

/-- A representative cloud-provider URL for logical path `p` in bucket `b`
(account host fixed to `account`). -/
def cloudURL (b p : GoStr) : GoStr :=
  gs "https://account" ++ azMarker ++ b ++ gs "/" ++ p

/-- A representative generic HTTP URL for logical path `p` in bucket `b`
(host fixed to `minio:9000`). -/
def httpURL (b p : GoStr) : GoStr :=
  gs "http://minio:9000/" ++ b ++ gs "/" ++ p

/-! ## Playback service: master-manifest rewrite of `GetMaster` -/

/-- The alternation `(1080p|720p|480p|360p)` of the rewrite regular
expression in `GetMaster`. -/
def renditionLabels : List GoStr := [gs "1080p", gs "720p", gs "480p", gs "360p"]

/-- Whether a line matches the `GetMaster` rewrite pattern
`(?m)^(1080p|720p|480p|360p)/index.m3u8$`: a label, `/index`, one arbitrary
character (the unescaped `.` of the pattern, which in Go regexp matches any
character except a newline), then `m3u8`, spanning the whole line. -/
def lineMatches (l : GoStr) : Bool :=
  renditionLabels.any fun lab =>
    (lab ++ gs "/index").isPrefixOf l &&
      l.length == lab.length + 11 &&
      l.drop (lab.length + 7) == gs "m3u8"

/-- Go `path.Join(a, "index.m3u8")` as used in the rewrite callback;
`path.Clean` is the identity on every value joined there. -/
def pathJoin (a b : GoStr) : GoStr :=
  if a = [] then b else a ++ gs "/" ++ b

/-- The `ReplaceAllStringFunc` callback of `GetMaster` applied per line:
a matching line becomes `path.Join(strings.Split(line, "/")[0], "index.m3u8")`,
any other line is kept. -/
def replaceLine (l : GoStr) : GoStr :=
  if lineMatches l then pathJoin ((splitChar '/' l).headD []) (gs "index.m3u8")
  else l

/-- The full rewrite step of `GetMaster`: the multiline-anchored regex
replacement acts independently on each newline-separated line. -/
def rewriteMaster (body : GoStr) : GoStr :=
  List.intercalate (gs "\n") ((splitChar '\n' body).map replaceLine)

/-! ## Playback service: the four HTTP handlers

The gorm database, the object store, the cache store and the public HTTP
fetch are modelled as explicit read maps; each handler returns its response
together with the list of database lookups, blob downloads and public HTTP
fetches it performed and the cache contents after the call. -/

/-- The fields of `models.Video` read by the playback handlers. -/
structure Video where
  uploadId : GoStr
  userId : GoStr
  hlsMasterUrl : GoStr
  thumbnailUrl : GoStr
deriving DecidableEq

/-- Handler configuration: whether the S3 client was initialised (private
mode), the configured bucket, whether the cache service was initialised, and
which cache keys the cache store fails to write. -/
structure PCfg where
  s3Enabled : Bool
  bucket : GoStr
  cacheEnabled : Bool
  cacheSetFails : GoStr → Bool

/-- External state read by the playback handlers. -/
structure PState where
  db : GoStr → Option Video
  storage : GoStr → Option GoStr
  cacheStore : GoStr → Option GoStr
  http : GoStr → Option GoStr

/-- Responses the playback handlers produce. -/
inductive HResp where
  | ok (contentType : GoStr) (body : GoStr)
  | notFound (msg : GoStr)
  | badRequest (msg : GoStr)
  | badGateway (msg : GoStr)
  | redirect (url : GoStr)
deriving DecidableEq

/-- A handler outcome: response plus the performed effects. -/
structure PRes where
  resp : HResp
  dbQueries : List GoStr
  fetches : List GoStr
  httpGets : List GoStr
  cacheAfter : GoStr → Option GoStr

/-- Translation of `allowedRendition` (handler.go). -/
def allowedRendition (r : GoStr) : Bool :=
  r == gs "1080p" || r == gs "720p" || r == gs "480p" || r == gs "360p"

/-- Modelled from the spec: `cache.CacheService.GenerateKey` is not in the
source tree; section 3 (CacheEntry) specifies the key as the composite of the
resource kind, the uploadId and the blob path. -/
def genKey (kind uploadId blobPath : GoStr) : GoStr :=
  kind ++ gs ":" ++ uploadId ++ gs ":" ++ blobPath

/-- The HLS manifest content type used by the handlers. -/
def mpegurlCT : GoStr := gs "application/vnd.apple.mpegurl"

/-- The content-type guess of `GetSegment`. -/
def segContentType (segment : GoStr) : GoStr :=
  if (gs ".m3u8").isSuffixOf segment then mpegurlCT else gs "video/MP2T"

/-- Translation of `Handler.GetMaster`: descriptor lookup, not-found and
not-ready guards, then the private (blob download) or public (HTTP fetch)
path, each followed by the rewrite step. -/
def getMaster (cfg : PCfg) (st : PState) (uploadId : GoStr) : PRes :=
  match st.db uploadId with
  | none => ⟨.notFound (gs "not found"), [uploadId], [], [], st.cacheStore⟩
  | some v =>
    if v.hlsMasterUrl = [] then
      ⟨.badRequest (gs "master not ready"), [uploadId], [], [], st.cacheStore⟩
    else if cfg.s3Enabled then
      let blobPath := extractBlobPath cfg.bucket v.hlsMasterUrl
      match st.storage blobPath with
      | none => ⟨.badGateway (gs "blob error"), [uploadId], [blobPath], [], st.cacheStore⟩
      | some data =>
        ⟨.ok mpegurlCT (rewriteMaster data), [uploadId], [blobPath], [], st.cacheStore⟩
    else
      match st.http v.hlsMasterUrl with
      | none => ⟨.badGateway (gs "upstream error"), [uploadId], [], [v.hlsMasterUrl], st.cacheStore⟩
      | some b =>
        ⟨.ok mpegurlCT (rewriteMaster b), [uploadId], [], [v.hlsMasterUrl], st.cacheStore⟩

/-- Translation of `Handler.GetVariant`: rendition validation before any
lookup, then descriptor lookup, then the private or public fetch of
`<base>/<rendition>/index.m3u8`. -/
def getVariant (cfg : PCfg) (st : PState) (uploadId rendition : GoStr) : PRes :=
  if !allowedRendition rendition then
    ⟨.badRequest (gs "invalid rendition"), [], [], [], st.cacheStore⟩
  else
    match st.db uploadId with
    | none => ⟨.notFound (gs "not found"), [uploadId], [], [], st.cacheStore⟩
    | some v =>
      if cfg.s3Enabled then
        let blobPath := blobBase cfg.bucket v.hlsMasterUrl ++ gs "/" ++ rendition ++ gs "/index.m3u8"
        match st.storage blobPath with
        | none => ⟨.badGateway (gs "blob error"), [uploadId], [blobPath], [], st.cacheStore⟩
        | some data => ⟨.ok mpegurlCT data, [uploadId], [blobPath], [], st.cacheStore⟩
      else
        let url := baseHLSPath v.hlsMasterUrl ++ gs "/" ++ rendition ++ gs "/index.m3u8"
        match st.http url with
        | none => ⟨.badGateway (gs "upstream error"), [uploadId], [], [url], st.cacheStore⟩
        | some b => ⟨.ok mpegurlCT b, [uploadId], [], [url], st.cacheStore⟩

/-- The private-mode segment blob path of `GetSegment`:
`<blobBase>/<rendition>/<segment>`. -/
def segBlobPath (cfg : PCfg) (v : Video) (rendition segment : GoStr) : GoStr :=
  blobBase cfg.bucket v.hlsMasterUrl ++ gs "/" ++ rendition ++ gs "/" ++ segment

/-- Translation of `Handler.GetSegment`: parameter validation before any
lookup (`!allowed || (!hasSuffix ".ts" && !hasSuffix ".m4s")` with Go
operator precedence), descriptor lookup, then in private mode the
read-through cache in front of the blob download (a cache-set failure leaves
the cache unchanged and is not propagated), or the public proxy. -/
def getSegment (cfg : PCfg) (st : PState) (uploadId rendition segment : GoStr) : PRes :=
  if !allowedRendition rendition ||
      (!(gs ".ts").isSuffixOf segment && !(gs ".m4s").isSuffixOf segment) then
    ⟨.badRequest (gs "invalid segment"), [], [], [], st.cacheStore⟩
  else
    match st.db uploadId with
    | none => ⟨.notFound (gs "not found"), [uploadId], [], [], st.cacheStore⟩
    | some v =>
      if cfg.s3Enabled then
        let blobPath := segBlobPath cfg v rendition segment
        let key := genKey (gs "segment") uploadId blobPath
        match (if cfg.cacheEnabled then st.cacheStore key else none) with
        | some data =>
          ⟨.ok (segContentType segment) data, [uploadId], [], [], st.cacheStore⟩
        | none =>
          match st.storage blobPath with
          | none => ⟨.badGateway (gs "blob error"), [uploadId], [blobPath], [], st.cacheStore⟩
          | some data =>
            let cacheAfter :=
              if cfg.cacheEnabled && !cfg.cacheSetFails key then
                fun k => if k = key then some data else st.cacheStore k
              else st.cacheStore
            ⟨.ok (segContentType segment) data, [uploadId], [blobPath], [], cacheAfter⟩
      else
        let url := baseHLSPath v.hlsMasterUrl ++ gs "/" ++ rendition ++ gs "/" ++ segment
        match st.http url with
        | none => ⟨.badGateway (gs "upstream error"), [uploadId], [], [url], st.cacheStore⟩
        | some b => ⟨.ok (segContentType segment) b, [uploadId], [], [url], st.cacheStore⟩

/-- Translation of `Handler.GetThumbnail`: descriptor lookup, empty
thumbnail-URL guard, then in private mode the read-through cache over
`thumbnails/<userId>/<uploadId>.jpg` (a storage miss maps to not-found here),
or the public redirect. -/
def getThumbnail (cfg : PCfg) (st : PState) (uploadId : GoStr) : PRes :=
  match st.db uploadId with
  | none => ⟨.notFound (gs "Video not found"), [uploadId], [], [], st.cacheStore⟩
  | some v =>
    if v.thumbnailUrl = [] then
      ⟨.notFound (gs "Thumbnail not available"), [uploadId], [], [], st.cacheStore⟩
    else if cfg.s3Enabled then
      let thumbnailPath := gs "thumbnails/" ++ v.userId ++ gs "/" ++ v.uploadId ++ gs ".jpg"
      let key := genKey (gs "thumbnail") uploadId thumbnailPath
      match (if cfg.cacheEnabled then st.cacheStore key else none) with
      | some data => ⟨.ok (gs "image/jpeg") data, [uploadId], [], [], st.cacheStore⟩
      | none =>
        match st.storage thumbnailPath with
        | none => ⟨.notFound (gs "Thumbnail not found"), [uploadId], [thumbnailPath], [], st.cacheStore⟩
        | some data =>
          let cacheAfter :=
            if cfg.cacheEnabled && !cfg.cacheSetFails key then
              fun k => if k = key then some data else st.cacheStore k
            else st.cacheStore
          ⟨.ok (gs "image/jpeg") data, [uploadId], [thumbnailPath], [], cacheAfter⟩
    else ⟨.redirect v.thumbnailUrl, [uploadId], [], [], st.cacheStore⟩

/-! ## Transcoder service: the job handler (`Transcoder.Handle`)

The local filesystem operations of the workspace (MkdirAll, WriteFile) are
modelled as succeeding; the fallible external effects (raw download, the
ffmpeg encodes, the HLS tree upload, the thumbnail generation and upload and
the completion publish) are driven by an explicit environment, and the
handler returns its `error` result together with the ordered trace of
effects it attempted. -/

/-- The fields of `UploadEvent` used by `Transcoder.Handle`. -/
structure UploadEvent where
  uploadId : GoStr
  userId : GoStr
  title : GoStr
  rawVideoPath : GoStr
  resolutions : List GoStr
deriving DecidableEq

/-- The fields of the published completion event tracked by the model. -/
structure CompletionOut where
  uploadId : GoStr
  userId : GoStr
  masterUrl : GoStr
  thumbnailUrl : GoStr
  ready : Bool
deriving DecidableEq

/-- The effects `Transcoder.Handle` attempts, in order. -/
inductive Ev where
  | download (blobPath : GoStr)
  | encode (res : GoStr)
  | writeMaster (content : GoStr)
  | uploadDir (base : GoStr)
  | uploadThumb (blobPath : GoStr)
  | publish (out : CompletionOut)
deriving DecidableEq

/-- Environment driving the fallible effects of one `Handle` run, plus the
URL configuration read by `buildAzureURL`. -/
structure TEnv where
  downloadOk : Bool
  encodeOk : GoStr → Bool
  uploadDirOk : Bool
  thumbGenOk : Bool
  thumbUploadOk : Bool
  publishOk : Bool
  urlPublicBase : Option GoStr
  urlEndpoint : Option GoStr
  urlPort : GoStr
  urlSSL : Bool

/-- Translation of `Transcoder.buildAzureURL`: public base when configured,
otherwise scheme://endpoint[:port]/path, otherwise a relative path. -/
def buildAzureURL (env : TEnv) (blobPath : GoStr) : GoStr :=
  match env.urlPublicBase with
  | some base => gTrimRightSlash base ++ gs "/" ++ blobPath
  | none =>
    match env.urlEndpoint with
    | none => gs "/" ++ blobPath
    | some ep =>
      let scheme := if env.urlSSL then gs "https" else gs "http"
      let host := if env.urlPort ≠ [] then ep ++ gs ":" ++ env.urlPort else ep
      scheme ++ gs "://" ++ host ++ gs "/" ++ blobPath

/-- The ladder selected by `Handle`: the event's resolutions, defaulting to
the canonical four-rendition ladder when absent. -/
def ladderOf (evt : UploadEvent) : List GoStr :=
  if evt.resolutions = [] then defaultLadder else evt.resolutions

/-- The deterministic HLS output base `hls/<userId>/<uploadId>` of `Handle`. -/
def hlsBase (evt : UploadEvent) : GoStr :=
  gs "hls/" ++ evt.userId ++ gs "/" ++ evt.uploadId

/-- The deterministic thumbnail blob path `thumbnails/<userId>/<uploadId>.jpg`. -/
def thumbBlobPath (evt : UploadEvent) : GoStr :=
  gs "thumbnails/" ++ evt.userId ++ gs "/" ++ evt.uploadId ++ gs ".jpg"

/-- The per-rendition encode loop of `Handle`: run the encoder in ladder
order, stopping at the first failing rendition (returned as `some`). -/
def runLadder (env : TEnv) : List GoStr → Option GoStr × List Ev
  | [] => (none, [])
  | r :: rest =>
    if env.encodeOk r then
      ((runLadder env rest).1, Ev.encode r :: (runLadder env rest).2)
    else (some r, [Ev.encode r])

/-- Translation of `Transcoder.Handle` (s3.go): field validation, raw
download, the encode loop, the local master write, the HLS tree upload, the
non-fatal thumbnail step, and the completion publish. -/
def handle (env : TEnv) (evt : UploadEvent) : Except GoStr Unit × List Ev :=
  if evt.uploadId = [] ∨ evt.userId = [] ∨ evt.rawVideoPath = [] then
    (.error (gs "missing required fields"), [])
  else
    let evs0 := [Ev.download evt.rawVideoPath]
    if !env.downloadOk then (.error (gs "download"), evs0)
    else
      match runLadder env (ladderOf evt) with
      | (some failed, encEvs) => (.error (gs "ffmpeg " ++ failed), evs0 ++ encEvs)
      | (none, encEvs) =>
        let master := buildMaster evt.userId evt.uploadId (ladderOf evt)
        let evs1 := evs0 ++ encEvs ++ [Ev.writeMaster master, Ev.uploadDir (hlsBase evt)]
        if !env.uploadDirOk then (.error (gs "upload hls"), evs1)
        else
          let thumbRes :=
            if env.thumbGenOk then
              if env.thumbUploadOk then
                (buildAzureURL env (thumbBlobPath evt), evs1 ++ [Ev.uploadThumb (thumbBlobPath evt)])
              else ([], evs1 ++ [Ev.uploadThumb (thumbBlobPath evt)])
            else ([], evs1)
          let out : CompletionOut :=
            { uploadId := evt.uploadId
              userId := evt.userId
              masterUrl := buildAzureURL env (hlsBase evt ++ gs "/" ++ gs "master.m3u8")
              thumbnailUrl := thumbRes.1
              ready := true }
          let evs3 := thumbRes.2 ++ [Ev.publish out]
          if env.publishOk then (.ok (), evs3) else (.error (gs "publish"), evs3)

/-- Modelled from the spec: the retry/DLQ policy of the queue consumer is not
in the source tree; section 7 classifies a malformed event or missing
required field as a permanent error, rejected without retry. -/
def isPermanentError (msg : GoStr) : Bool :=
  msg == gs "missing required fields"

/-- Effects allowed to precede a rendition failure: the raw download and the
encoder invocations themselves (no write of the master, no upload, no
publish). -/
def isDownloadOrEncode : Ev → Bool
  | .download _ => true
  | .encode _ => true
  | _ => false

/-- The per-event output-path discipline asserted for C8: an HLS tree upload
goes exactly to `hls/<userId>/<uploadId>`, a thumbnail upload exactly to
`thumbnails/<userId>/<uploadId>.jpg`, and a published completion event
carries the master URL built from `hls/<userId>/<uploadId>/master.m3u8`. -/
def pathsDeterministic (env : TEnv) (evt : UploadEvent) : Ev → Bool
  | .uploadDir b => b == hlsBase evt
  | .uploadThumb p => p == thumbBlobPath evt
  | .publish out =>
    out.masterUrl == buildAzureURL env (hlsBase evt ++ gs "/" ++ gs "master.m3u8")
  | _ => true

/-- The completion event `Handle` publishes on a run whose thumbnail step
failed: ready, with the deterministic master URL and an empty thumbnail. -/
def completionOf (env : TEnv) (evt : UploadEvent) : CompletionOut :=
  { uploadId := evt.uploadId
    userId := evt.userId
    masterUrl := buildAzureURL env (hlsBase evt ++ gs "/" ++ gs "master.m3u8")
    thumbnailUrl := []
    ready := true }

/-! ## Helper lemmas on the string models -/

theorem isPrefixOf_append_self (x y : GoStr) : x.isPrefixOf (x ++ y) = true := by
  induction x with
  | nil => simp [List.isPrefixOf]
  | cons a t ih => simp [List.isPrefixOf, ih]

theorem drop_length_append (x y : GoStr) : (x ++ y).drop x.length = y := by
  induction x with
  | nil => simp
  | cons a t ih => simpa using ih

theorem trimPrefixG_append (x y : GoStr) : trimPrefixG (x ++ y) x = y := by
  simp [trimPrefixG, isPrefixOf_append_self, drop_length_append]

theorem trimPrefixG_no_match (s pre : GoStr) (h : pre.isPrefixOf s = false) :
    trimPrefixG s pre = s := by
  simp [trimPrefixG, h]

theorem foldl_append_map (f : GoStr → GoStr) :
    ∀ (L : List GoStr) (init : GoStr),
      L.foldl (fun s r => s ++ f r) init = init ++ (L.map f).flatten := by
  intro L
  induction L with
  | nil => intro init; simp
  | cons r rest ih => intro init; simp [ih, List.append_assoc]

/-- C1: for every nonempty ladder drawn from the four known labels,
`buildMaster` is the header followed by exactly the claimed entries, in ladder
order: each entry carries the claimed BANDWIDTH value and is followed by the
`label/index.m3u8` reference line. -/
theorem buildMaster_matches_claim (u a : GoStr) (L : List GoStr)
    (hne : L ≠ []) (hsub : ∀ r ∈ L, r ∈ defaultLadder) :
    buildMaster u a L = gs "#EXTM3U\n" ++ (L.map claimEntry).flatten := by
  unfold buildMaster
  rw [if_neg hne, foldl_append_map]
  congr 1
  congr 1
  apply List.map_congr_left
  intro r hr
  have := hsub r hr
  simp only [defaultLadder, List.mem_cons, List.not_mem_nil, or_false] at this
  rcases this with h | h | h | h <;> subst h <;> decide

/-- C1 witness: the claimed shape at the concrete ladder [720p, 360p]. -/
theorem buildMaster_matches_claim_witness :
    ([gs "720p", gs "360p"] ≠ ([] : List GoStr)) ∧
      (∀ r ∈ [gs "720p", gs "360p"], r ∈ defaultLadder) ∧
      buildMaster (gs "u1") (gs "abc123") [gs "720p", gs "360p"] =
        gs "#EXTM3U\n" ++ ([gs "720p", gs "360p"].map claimEntry).flatten :=
  ⟨by decide, by decide,
    buildMaster_matches_claim (gs "u1") (gs "abc123") [gs "720p", gs "360p"]
      (by decide) (by decide)⟩

/-- C1 counterexample: for the empty ladder (a subset of the four labels) the
claim predicts a manifest that is the bare header with no entries, but
`buildMaster` substitutes the default four-rendition ladder. -/
theorem buildMaster_empty_ladder_not_header_only :
    buildMaster (gs "u1") (gs "abc123") [] ≠
      gs "#EXTM3U\n" ++ (([] : List GoStr).map claimEntry).flatten := by
  decide

theorem splitFirst_none_of_not_contains (s sub : GoStr) (h : gContains s sub = false) :
    splitFirst sub s = none := by
  cases hs : splitFirst sub s with
  | none => rfl
  | some p => simp [gContains, hs] at h


theorem splitFirst_first_occurrence (c : Char) (sep' : GoStr) :
    ∀ (pre suf : GoStr), c ∉ pre →
      splitFirst (c :: sep') (pre ++ c :: (sep' ++ suf)) = some (pre, suf) := by
  intro pre
  induction pre with
  | nil =>
    intro suf _
    rw [List.nil_append, splitFirst]
    rw [show (c :: (sep' ++ suf)) = (c :: sep') ++ suf from rfl]
    simp [isPrefixOf_append_self, drop_length_append]
  | cons d pre' ih =>
    intro suf h
    have hcd : ¬(c = d) := fun e => h (e ▸ List.mem_cons_self d pre')
    have hmem : c ∉ pre' := fun e => h (List.mem_cons_of_mem d e)
    rw [List.cons_append, splitFirst]
    have hpfx : (c :: sep').isPrefixOf (d :: (pre' ++ c :: (sep' ++ suf))) = false := by
      have hbeq : (c == d) = false := beq_eq_false_iff_ne.mpr hcd
      simp [List.isPrefixOf, hbeq]
    rw [hpfx]
    rw [ih suf hmem]
    rfl

theorem breakAtChar_first (c : Char) :
    ∀ (pre suf : GoStr), c ∉ pre →
      breakAtChar c (pre ++ c :: suf) = some (pre, suf) := by
  intro pre
  induction pre with
  | nil => intro suf _; simp [breakAtChar]
  | cons d pre' ih =>
    intro suf h
    have hcd : ¬(d = c) := fun e => h (e ▸ List.mem_cons_self d pre')
    have hmem : c ∉ pre' := fun e => h (List.mem_cons_of_mem d e)
    rw [List.cons_append, breakAtChar]
    rw [if_neg hcd, ih suf hmem]
    rfl

/-- C2: for every logical path `p` that is a genuine relative path (no
leading slash, no URL scheme, no cloud-provider host marker in the derived
URL or the path itself) and every bucket `b`, the three source encodings
tried in order by `extractBlobPath` — the cloud-provider URL form, the
generic HTTP URL form and the bare relative form of `p` — all resolve to the
same blob path `p`. -/
theorem extractBlobPath_agree (b p : GoStr)
    (hp : (gs "/").isPrefixOf p = false)
    (hhttp : gContains (httpURL b p) azMarker = false)
    (hbare : gContains p azMarker = false)
    (h1 : (gs "http://").isPrefixOf p = false)
    (h2 : (gs "https://").isPrefixOf p = false) :
    extractBlobPath b (cloudURL b p) = p ∧
      extractBlobPath b (httpURL b p) = p ∧
      extractBlobPath b p = p := by
  have hassoc : ∀ x : GoStr, b ++ (gs "/" ++ x) = (b ++ gs "/") ++ x := by
    intro x; rw [List.append_assoc]
  refine ⟨?_, ?_, ?_⟩
  · -- cloud-provider URL form
    have hurl : cloudURL b p =
        gs "https://account" ++ '.' :: (gs "blob.core.windows.net/" ++ (b ++ (gs "/" ++ p))) := by
      show gs "https://account" ++ azMarker ++ b ++ gs "/" ++ p = _
      rw [show azMarker = '.' :: gs "blob.core.windows.net/" from rfl]
      simp [List.append_assoc]
    have hsplit : splitFirst azMarker (cloudURL b p) =
        some (gs "https://account", b ++ (gs "/" ++ p)) := by
      rw [hurl, show azMarker = '.' :: gs "blob.core.windows.net/" from rfl]
      exact splitFirst_first_occurrence '.' (gs "blob.core.windows.net/")
        (gs "https://account") (b ++ (gs "/" ++ p)) (by decide)
    have e1 : extractBlobPath b (cloudURL b p) =
        trimPrefixG (trimPrefixG (b ++ (gs "/" ++ p)) (b ++ gs "/")) (gs "/") := by
      rw [extractBlobPath, hsplit]
    rw [e1, hassoc, trimPrefixG_append, trimPrefixG_no_match p (gs "/") hp]
  · -- generic HTTP URL form
    have hsplit := splitFirst_none_of_not_contains _ _ hhttp
    have hpre : (gs "http://").isPrefixOf (httpURL b p) = true := by
      have e : httpURL b p = gs "http://" ++ (gs "minio:9000/" ++ (b ++ (gs "/" ++ p))) := by
        show gs "http://minio:9000/" ++ b ++ gs "/" ++ p = _
        rw [show gs "http://minio:9000/" = gs "http://" ++ gs "minio:9000/" from by decide]
        simp [List.append_assoc]
      rw [e]
      exact isPrefixOf_append_self _ _
    have hb1 : breakAtChar '/' (httpURL b p) =
        some (gs "http:", gs "/minio:9000/" ++ (b ++ (gs "/" ++ p))) := by
      have e : httpURL b p = gs "http:" ++ '/' :: (gs "/minio:9000/" ++ (b ++ (gs "/" ++ p))) := by
        show gs "http://minio:9000/" ++ b ++ gs "/" ++ p = _
        rw [show gs "http://minio:9000/" = gs "http:" ++ '/' :: gs "/minio:9000/" from by decide]
        simp [List.append_assoc]
      rw [e]
      exact breakAtChar_first '/' (gs "http:") _ (by decide)
    have hb2 : breakAtChar '/' (gs "/minio:9000/" ++ (b ++ (gs "/" ++ p))) =
        some ([], gs "minio:9000/" ++ (b ++ (gs "/" ++ p))) := by
      rfl
    have hb3 : breakAtChar '/' (gs "minio:9000/" ++ (b ++ (gs "/" ++ p))) =
        some (gs "minio:9000", b ++ (gs "/" ++ p)) := by
      have e : gs "minio:9000/" ++ (b ++ (gs "/" ++ p)) =
          gs "minio:9000" ++ '/' :: (b ++ (gs "/" ++ p)) := by
        rw [show gs "minio:9000/" = gs "minio:9000" ++ ['/'] from by decide]
        simp
      rw [e]
      exact breakAtChar_first '/' (gs "minio:9000") _ (by decide)
    have hparts : splitNChar '/' 4 (httpURL b p) =
        [gs "http:", [], gs "minio:9000", b ++ (gs "/" ++ p)] := by
      show splitNChar '/' (2 + 2) (httpURL b p) = _
      rw [splitNChar, hb1]
      show _ :: splitNChar '/' (1 + 2) _ = _
      rw [splitNChar, hb2]
      show _ :: _ :: splitNChar '/' (0 + 2) _ = _
      rw [splitNChar, hb3]
      rfl
    have hlen : (splitNChar '/' 4 (httpURL b p)).length ≥ 4 := by
      rw [hparts]; simp
    have e2 : extractBlobPath b (httpURL b p) =
        trimPrefixG (trimPrefixG ((splitNChar '/' 4 (httpURL b p)).getD 3 []) (b ++ gs "/")) (gs "/") := by
      rw [extractBlobPath, hsplit]
      rw [if_pos (by rw [hpre]; rfl)]
      simp only [ge_iff_le, hlen, if_pos]
    have e3 : (splitNChar '/' 4 (httpURL b p)).getD 3 [] = b ++ (gs "/" ++ p) := by
      rw [hparts]; rfl
    rw [e2, e3, hassoc, trimPrefixG_append, trimPrefixG_no_match p (gs "/") hp]
  · -- bare relative form
    have hsplit := splitFirst_none_of_not_contains _ _ hbare
    have e4 : extractBlobPath b p = trimPrefixG p (gs "/") := by
      rw [extractBlobPath, hsplit]
      rw [if_neg (by rw [h1, h2]; simp)]
    rw [e4, trimPrefixG_no_match p (gs "/") hp]

/-- C2 witness: agreement of the three encodings at a concrete path and
bucket. -/
theorem extractBlobPath_agree_witness :
    ((gs "/").isPrefixOf (gs "hls/u1/abc123/master.m3u8") = false) ∧
      (gContains (httpURL (gs "processed-videos") (gs "hls/u1/abc123/master.m3u8")) azMarker = false) ∧
      (gContains (gs "hls/u1/abc123/master.m3u8") azMarker = false) ∧
      (extractBlobPath (gs "processed-videos")
          (cloudURL (gs "processed-videos") (gs "hls/u1/abc123/master.m3u8")) =
          gs "hls/u1/abc123/master.m3u8" ∧
        extractBlobPath (gs "processed-videos")
          (httpURL (gs "processed-videos") (gs "hls/u1/abc123/master.m3u8")) =
          gs "hls/u1/abc123/master.m3u8" ∧
        extractBlobPath (gs "processed-videos") (gs "hls/u1/abc123/master.m3u8") =
          gs "hls/u1/abc123/master.m3u8") :=
  ⟨by decide, by decide, by decide,
    extractBlobPath_agree (gs "processed-videos") (gs "hls/u1/abc123/master.m3u8")
      (by decide) (by decide) (by decide) (by decide) (by decide)⟩

/-- C3 (amended): all four playback operations answer "not found" when no
VideoDescriptor exists for the uploadId (given otherwise-valid rendition and
segment parameters), and GetMaster — and only GetMaster — answers the
distinguishable "master not ready" result when the descriptor exists but its
manifest field is empty. -/
theorem playback_not_found_and_master_not_ready (cfg : PCfg) (st : PState)
    (uid r seg : GoStr) (v : Video)
    (hr : allowedRendition r = true)
    (hseg : (gs ".ts").isSuffixOf seg = true) :
    (st.db uid = none →
      (getMaster cfg st uid).resp = HResp.notFound (gs "not found") ∧
        (getVariant cfg st uid r).resp = HResp.notFound (gs "not found") ∧
        (getSegment cfg st uid r seg).resp = HResp.notFound (gs "not found") ∧
        (getThumbnail cfg st uid).resp = HResp.notFound (gs "Video not found")) ∧
      (st.db uid = some v → v.hlsMasterUrl = [] →
        (getMaster cfg st uid).resp = HResp.badRequest (gs "master not ready")) := by
  constructor
  · intro h
    refine ⟨?_, ?_, ?_, ?_⟩
    · simp [getMaster, h]
    · simp [getVariant, h, hr]
    · simp [getSegment, h, hr, hseg]
    · simp [getThumbnail, h]
  · intro h hm
    simp [getMaster, h, hm]

/-- C3 witness: the not-found branch at a concrete empty database. -/
theorem playback_not_found_witness :
    (allowedRendition (gs "720p") = true) ∧
      ((gs ".ts").isSuffixOf (gs "seg_000.ts") = true) ∧
      (((⟨fun _ => none, fun _ => none, fun _ => none, fun _ => none⟩ : PState).db (gs "abc123") = none →
        (getMaster ⟨true, gs "processed-videos", false, fun _ => false⟩
            ⟨fun _ => none, fun _ => none, fun _ => none, fun _ => none⟩ (gs "abc123")).resp =
            HResp.notFound (gs "not found") ∧
          (getVariant ⟨true, gs "processed-videos", false, fun _ => false⟩
              ⟨fun _ => none, fun _ => none, fun _ => none, fun _ => none⟩ (gs "abc123") (gs "720p")).resp =
            HResp.notFound (gs "not found") ∧
          (getSegment ⟨true, gs "processed-videos", false, fun _ => false⟩
              ⟨fun _ => none, fun _ => none, fun _ => none, fun _ => none⟩ (gs "abc123") (gs "720p")
              (gs "seg_000.ts")).resp = HResp.notFound (gs "not found") ∧
          (getThumbnail ⟨true, gs "processed-videos", false, fun _ => false⟩
              ⟨fun _ => none, fun _ => none, fun _ => none, fun _ => none⟩ (gs "abc123")).resp =
            HResp.notFound (gs "Video not found")) ∧
        ((⟨fun _ => none, fun _ => none, fun _ => none, fun _ => none⟩ : PState).db (gs "abc123") =
            some ⟨gs "abc123", gs "u1", [], []⟩ →
          (⟨gs "abc123", gs "u1", [], []⟩ : Video).hlsMasterUrl = [] →
          (getMaster ⟨true, gs "processed-videos", false, fun _ => false⟩
              ⟨fun _ => none, fun _ => none, fun _ => none, fun _ => none⟩ (gs "abc123")).resp =
            HResp.badRequest (gs "master not ready"))) :=
  ⟨by decide, by decide,
    playback_not_found_and_master_not_ready
      ⟨true, gs "processed-videos", false, fun _ => false⟩
      ⟨fun _ => none, fun _ => none, fun _ => none, fun _ => none⟩
      (gs "abc123") (gs "720p") (gs "seg_000.ts") ⟨gs "abc123", gs "u1", [], []⟩
      (by decide) (by decide)⟩

/-- C3 counterexample: with a descriptor present whose manifest field is
empty, GetVariant does not answer a "not ready" condition; it goes on to the
storage fetch (here failing, a 502 "blob error") — so the claim's
"distinguishable not-ready result from all four operations" is false. -/
theorem getVariant_empty_manifest_no_not_ready :
    (getVariant ⟨true, gs "processed-videos", false, fun _ => false⟩
        ⟨fun k => if k = gs "abc123" then some ⟨gs "abc123", gs "u1", [], []⟩ else none,
          fun _ => none, fun _ => none, fun _ => none⟩
        (gs "abc123") (gs "720p")).resp = HResp.badGateway (gs "blob error") ∧
      (getVariant ⟨true, gs "processed-videos", false, fun _ => false⟩
          ⟨fun k => if k = gs "abc123" then some ⟨gs "abc123", gs "u1", [], []⟩ else none,
            fun _ => none, fun _ => none, fun _ => none⟩
          (gs "abc123") (gs "720p")).fetches = [gs "/720p/index.m3u8"] := by
  constructor
  · rfl
  · rfl

/-- C5: a rendition outside the fixed allowed set makes GetVariant and
GetSegment answer a 400-class error with no database lookup, no storage
fetch and no HTTP fetch; for GetSegment, a segment name without a recognized
media-segment extension is rejected the same way whatever the rendition. -/
theorem invalid_params_rejected_without_access (cfg : PCfg) (st : PState)
    (uid r seg r2 seg2 : GoStr)
    (hr : allowedRendition r = false)
    (hs1 : (gs ".ts").isSuffixOf seg2 = false)
    (hs2 : (gs ".m4s").isSuffixOf seg2 = false) :
    getVariant cfg st uid r =
        ⟨HResp.badRequest (gs "invalid rendition"), [], [], [], st.cacheStore⟩ ∧
      getSegment cfg st uid r seg =
        ⟨HResp.badRequest (gs "invalid segment"), [], [], [], st.cacheStore⟩ ∧
      getSegment cfg st uid r2 seg2 =
        ⟨HResp.badRequest (gs "invalid segment"), [], [], [], st.cacheStore⟩ := by
  refine ⟨?_, ?_, ?_⟩
  · simp [getVariant, hr]
  · simp [getSegment, hr]
  · simp [getSegment, hs1, hs2]

/-- C5 witness: the rejection at the concrete invalid rendition `4k` and the
concrete invalid segment name `evil.exe`. -/
theorem invalid_params_rejected_witness :
    (allowedRendition (gs "4k") = false) ∧
      ((gs ".ts").isSuffixOf (gs "evil.exe") = false) ∧
      ((gs ".m4s").isSuffixOf (gs "evil.exe") = false) ∧
      (getVariant ⟨true, gs "processed-videos", true, fun _ => false⟩
          ⟨fun _ => none, fun _ => none, fun _ => none, fun _ => none⟩ (gs "abc123") (gs "4k") =
          ⟨HResp.badRequest (gs "invalid rendition"), [], [], [],
            (⟨fun _ => none, fun _ => none, fun _ => none, fun _ => none⟩ : PState).cacheStore⟩ ∧
        getSegment ⟨true, gs "processed-videos", true, fun _ => false⟩
            ⟨fun _ => none, fun _ => none, fun _ => none, fun _ => none⟩ (gs "abc123") (gs "4k")
            (gs "seg_000.ts") =
          ⟨HResp.badRequest (gs "invalid segment"), [], [], [],
            (⟨fun _ => none, fun _ => none, fun _ => none, fun _ => none⟩ : PState).cacheStore⟩ ∧
        getSegment ⟨true, gs "processed-videos", true, fun _ => false⟩
            ⟨fun _ => none, fun _ => none, fun _ => none, fun _ => none⟩ (gs "abc123") (gs "720p")
            (gs "evil.exe") =
          ⟨HResp.badRequest (gs "invalid segment"), [], [], [],
            (⟨fun _ => none, fun _ => none, fun _ => none, fun _ => none⟩ : PState).cacheStore⟩) :=
  ⟨by decide, by decide, by decide,
    invalid_params_rejected_without_access
      ⟨true, gs "processed-videos", true, fun _ => false⟩
      ⟨fun _ => none, fun _ => none, fun _ => none, fun _ => none⟩
      (gs "abc123") (gs "4k") (gs "seg_000.ts") (gs "720p") (gs "evil.exe")
      (by decide) (by decide) (by decide)⟩

/-- C6: the GetSegment cache is read-through.  On a cache miss the bytes are
fetched from storage exactly once and returned whether or not the cache
write succeeds (a cache-set failure is never propagated); when the cache
write succeeds, repeating the request against the updated cache is a hit
that performs no storage fetch, so the two requests together perform exactly
one underlying storage fetch. -/
theorem getSegment_read_through_cache (cfg : PCfg) (st : PState)
    (uid r seg data : GoStr) (v : Video)
    (hs3 : cfg.s3Enabled = true) (hce : cfg.cacheEnabled = true)
    (hr : allowedRendition r = true)
    (hseg : (gs ".ts").isSuffixOf seg = true)
    (hdb : st.db uid = some v)
    (hstore : st.storage (segBlobPath cfg v r seg) = some data)
    (hmiss : st.cacheStore (genKey (gs "segment") uid (segBlobPath cfg v r seg)) = none) :
    ((getSegment cfg st uid r seg).resp = HResp.ok (segContentType seg) data ∧
        (getSegment cfg st uid r seg).fetches = [segBlobPath cfg v r seg]) ∧
      (cfg.cacheSetFails (genKey (gs "segment") uid (segBlobPath cfg v r seg)) = false →
        (getSegment cfg { st with cacheStore := (getSegment cfg st uid r seg).cacheAfter }
            uid r seg).resp = HResp.ok (segContentType seg) data ∧
          (getSegment cfg { st with cacheStore := (getSegment cfg st uid r seg).cacheAfter }
            uid r seg).fetches = [] ∧
          (getSegment cfg st uid r seg).fetches.length +
            (getSegment cfg { st with cacheStore := (getSegment cfg st uid r seg).cacheAfter }
              uid r seg).fetches.length = 1) := by
  have hresp1 : (getSegment cfg st uid r seg).resp = HResp.ok (segContentType seg) data := by
    simp [getSegment, hs3, hce, hr, hseg, hdb, hstore, hmiss]
  have hfetch1 : (getSegment cfg st uid r seg).fetches = [segBlobPath cfg v r seg] := by
    simp [getSegment, hs3, hce, hr, hseg, hdb, hstore, hmiss]
  refine ⟨⟨hresp1, hfetch1⟩, ?_⟩
  intro hset
  have hhit : (getSegment cfg st uid r seg).cacheAfter
      (genKey (gs "segment") uid (segBlobPath cfg v r seg)) = some data := by
    simp [getSegment, hs3, hce, hr, hseg, hdb, hstore, hmiss, hset]
  have hresp2 : (getSegment cfg { st with cacheStore := (getSegment cfg st uid r seg).cacheAfter }
      uid r seg).resp = HResp.ok (segContentType seg) data := by
    generalize hF : (getSegment cfg st uid r seg).cacheAfter = F at hhit ⊢
    simp [getSegment, hs3, hce, hr, hseg, hdb, hhit]
  have hfetch2 : (getSegment cfg { st with cacheStore := (getSegment cfg st uid r seg).cacheAfter }
      uid r seg).fetches = [] := by
    generalize hF : (getSegment cfg st uid r seg).cacheAfter = F at hhit ⊢
    simp [getSegment, hs3, hce, hr, hseg, hdb, hhit]
  refine ⟨hresp2, hfetch2, ?_⟩
  rw [hfetch1, hfetch2]
  rfl

/-- C6 witness: miss-then-hit at a concrete segment request with a cache
whose writes succeed; together the two requests fetch from storage once. -/
theorem getSegment_read_through_cache_witness :
    ((⟨true, gs "processed-videos", true, fun _ => false⟩ : PCfg).s3Enabled = true) ∧
      ((⟨true, gs "processed-videos", true, fun _ => false⟩ : PCfg).cacheEnabled = true) ∧
      (allowedRendition (gs "720p") = true) ∧
      ((gs ".ts").isSuffixOf (gs "seg_000.ts") = true) ∧
      ((⟨fun k => if k = gs "abc123" then
            some ⟨gs "abc123", gs "u1", gs "/hls/u1/abc123/master.m3u8", gs "t.jpg"⟩ else none,
          fun _ => some (gs "SEGDATA"), fun _ => none, fun _ => none⟩ : PState).db (gs "abc123") =
        some ⟨gs "abc123", gs "u1", gs "/hls/u1/abc123/master.m3u8", gs "t.jpg"⟩) ∧
      (((getSegment ⟨true, gs "processed-videos", true, fun _ => false⟩
          ⟨fun k => if k = gs "abc123" then
              some ⟨gs "abc123", gs "u1", gs "/hls/u1/abc123/master.m3u8", gs "t.jpg"⟩ else none,
            fun _ => some (gs "SEGDATA"), fun _ => none, fun _ => none⟩
          (gs "abc123") (gs "720p") (gs "seg_000.ts")).resp =
          HResp.ok (segContentType (gs "seg_000.ts")) (gs "SEGDATA") ∧
        (getSegment ⟨true, gs "processed-videos", true, fun _ => false⟩
          ⟨fun k => if k = gs "abc123" then
              some ⟨gs "abc123", gs "u1", gs "/hls/u1/abc123/master.m3u8", gs "t.jpg"⟩ else none,
            fun _ => some (gs "SEGDATA"), fun _ => none, fun _ => none⟩
          (gs "abc123") (gs "720p") (gs "seg_000.ts")).fetches =
          [segBlobPath ⟨true, gs "processed-videos", true, fun _ => false⟩
            ⟨gs "abc123", gs "u1", gs "/hls/u1/abc123/master.m3u8", gs "t.jpg"⟩
            (gs "720p") (gs "seg_000.ts")]) ∧
        ((⟨true, gs "processed-videos", true, fun _ => false⟩ : PCfg).cacheSetFails
            (genKey (gs "segment") (gs "abc123")
              (segBlobPath ⟨true, gs "processed-videos", true, fun _ => false⟩
                ⟨gs "abc123", gs "u1", gs "/hls/u1/abc123/master.m3u8", gs "t.jpg"⟩
                (gs "720p") (gs "seg_000.ts"))) = false →
          (getSegment ⟨true, gs "processed-videos", true, fun _ => false⟩
              { (⟨fun k => if k = gs "abc123" then
                    some ⟨gs "abc123", gs "u1", gs "/hls/u1/abc123/master.m3u8", gs "t.jpg"⟩ else none,
                  fun _ => some (gs "SEGDATA"), fun _ => none, fun _ => none⟩ : PState) with
                cacheStore := (getSegment ⟨true, gs "processed-videos", true, fun _ => false⟩
                  ⟨fun k => if k = gs "abc123" then
                      some ⟨gs "abc123", gs "u1", gs "/hls/u1/abc123/master.m3u8", gs "t.jpg"⟩ else none,
                    fun _ => some (gs "SEGDATA"), fun _ => none, fun _ => none⟩
                  (gs "abc123") (gs "720p") (gs "seg_000.ts")).cacheAfter }
              (gs "abc123") (gs "720p") (gs "seg_000.ts")).resp =
            HResp.ok (segContentType (gs "seg_000.ts")) (gs "SEGDATA") ∧
            (getSegment ⟨true, gs "processed-videos", true, fun _ => false⟩
              { (⟨fun k => if k = gs "abc123" then
                    some ⟨gs "abc123", gs "u1", gs "/hls/u1/abc123/master.m3u8", gs "t.jpg"⟩ else none,
                  fun _ => some (gs "SEGDATA"), fun _ => none, fun _ => none⟩ : PState) with
                cacheStore := (getSegment ⟨true, gs "processed-videos", true, fun _ => false⟩
                  ⟨fun k => if k = gs "abc123" then
                      some ⟨gs "abc123", gs "u1", gs "/hls/u1/abc123/master.m3u8", gs "t.jpg"⟩ else none,
                    fun _ => some (gs "SEGDATA"), fun _ => none, fun _ => none⟩
                  (gs "abc123") (gs "720p") (gs "seg_000.ts")).cacheAfter }
              (gs "abc123") (gs "720p") (gs "seg_000.ts")).fetches = [] ∧
            (getSegment ⟨true, gs "processed-videos", true, fun _ => false⟩
                ⟨fun k => if k = gs "abc123" then
                    some ⟨gs "abc123", gs "u1", gs "/hls/u1/abc123/master.m3u8", gs "t.jpg"⟩ else none,
                  fun _ => some (gs "SEGDATA"), fun _ => none, fun _ => none⟩
                (gs "abc123") (gs "720p") (gs "seg_000.ts")).fetches.length +
              (getSegment ⟨true, gs "processed-videos", true, fun _ => false⟩
                { (⟨fun k => if k = gs "abc123" then
                      some ⟨gs "abc123", gs "u1", gs "/hls/u1/abc123/master.m3u8", gs "t.jpg"⟩ else none,
                    fun _ => some (gs "SEGDATA"), fun _ => none, fun _ => none⟩ : PState) with
                  cacheStore := (getSegment ⟨true, gs "processed-videos", true, fun _ => false⟩
                    ⟨fun k => if k = gs "abc123" then
                        some ⟨gs "abc123", gs "u1", gs "/hls/u1/abc123/master.m3u8", gs "t.jpg"⟩ else none,
                      fun _ => some (gs "SEGDATA"), fun _ => none, fun _ => none⟩
                    (gs "abc123") (gs "720p") (gs "seg_000.ts")).cacheAfter }
                (gs "abc123") (gs "720p") (gs "seg_000.ts")).fetches.length = 1)) :=
  ⟨by decide, by decide, by decide, by decide, by decide,
    getSegment_read_through_cache ⟨true, gs "processed-videos", true, fun _ => false⟩
      ⟨fun k => if k = gs "abc123" then
          some ⟨gs "abc123", gs "u1", gs "/hls/u1/abc123/master.m3u8", gs "t.jpg"⟩ else none,
        fun _ => some (gs "SEGDATA"), fun _ => none, fun _ => none⟩
      (gs "abc123") (gs "720p") (gs "seg_000.ts") (gs "SEGDATA")
      ⟨gs "abc123", gs "u1", gs "/hls/u1/abc123/master.m3u8", gs "t.jpg"⟩
      (by decide) (by decide) (by decide) (by decide) (by decide) (by decide) (by decide)⟩

theorem runLadder_events (env : TEnv) (p : Ev → Bool)
    (hp : ∀ r, p (Ev.encode r) = true) :
    ∀ L : List GoStr, (runLadder env L).2.all p = true := by
  intro L
  induction L with
  | nil => simp [runLadder]
  | cons r rest ih =>
    by_cases h : env.encodeOk r <;> simp [runLadder, h, hp, ih]

theorem runLadder_fail (env : TEnv) :
    ∀ L : List GoStr, (∃ r ∈ L, env.encodeOk r = false) →
      ∃ f, (runLadder env L).1 = some f := by
  intro L
  induction L with
  | nil => rintro ⟨r, hr, _⟩; exact absurd hr (List.not_mem_nil r)
  | cons r rest ih =>
    rintro ⟨x, hx, hxf⟩
    by_cases h : env.encodeOk r
    · rcases List.mem_cons.mp hx with rfl | hx'
      · exact absurd h (by simp [hxf])
      · obtain ⟨f, hf⟩ := ih ⟨x, hx', hxf⟩
        exact ⟨f, by simp [runLadder, h, hf]⟩
    · exact ⟨r, by simp [runLadder, h]⟩

theorem runLadder_all_ok (env : TEnv) :
    ∀ L : List GoStr, (∀ r ∈ L, env.encodeOk r = true) →
      runLadder env L = (none, L.map Ev.encode) := by
  intro L
  induction L with
  | nil => intro _; rfl
  | cons r rest ih =>
    intro h
    have hr := h r (List.mem_cons_self r rest)
    have hrest := ih fun x hx => h x (List.mem_cons_of_mem r hx)
    simp [runLadder, hr, hrest]

/-- C4: whenever some rendition of the selected ladder fails to encode, the
job handler returns an error and its effect trace contains only the raw
download and the encoder invocations — no local master write, no HLS tree
upload, no thumbnail upload and no completion publish ever happens. -/
theorem encode_failure_publishes_nothing (env : TEnv) (evt : UploadEvent)
    (hfail : ∃ r ∈ ladderOf evt, env.encodeOk r = false) :
    (∃ e, (handle env evt).1 = Except.error e) ∧
      (handle env evt).2.all isDownloadOrEncode = true := by
  by_cases hv : evt.uploadId = [] ∨ evt.userId = [] ∨ evt.rawVideoPath = []
  · refine ⟨⟨gs "missing required fields", ?_⟩, ?_⟩ <;> simp [handle, hv]
  · by_cases hd : env.downloadOk
    · obtain ⟨f, hf⟩ := runLadder_fail env _ hfail
      rcases hq : runLadder env (ladderOf evt) with ⟨fo, evs⟩
      have hfo : fo = some f := by rw [hq] at hf; exact hf
      subst hfo
      have hevs : evs.all isDownloadOrEncode = true := by
        have h0 := runLadder_events env isDownloadOrEncode (fun _ => rfl) (ladderOf evt)
        rw [hq] at h0; exact h0
      constructor
      · refine ⟨gs "ffmpeg " ++ f, ?_⟩
        simp [handle, hv, hd, hq]
      · simp [handle, hv, hd, hq, List.all_append, hevs, isDownloadOrEncode]
    · have hd' : env.downloadOk = false := by simpa using hd
      refine ⟨⟨gs "download", ?_⟩, ?_⟩ <;> simp [handle, hv, hd', isDownloadOrEncode]

/-- C4 witness: a concrete environment whose encoder fails on the second
rendition of the ladder [720p, 360p]. -/
theorem encode_failure_publishes_nothing_witness :
    (∃ r ∈ ladderOf ⟨gs "abc123", gs "u1", gs "t", gs "raw/u1/abc123.mp4", [gs "720p", gs "360p"]⟩,
        (⟨true, fun r => !(r == gs "360p"), true, true, true, true, none, none, [], false⟩ : TEnv).encodeOk r
          = false) ∧
      ((∃ e, (handle ⟨true, fun r => !(r == gs "360p"), true, true, true, true, none, none, [], false⟩
          ⟨gs "abc123", gs "u1", gs "t", gs "raw/u1/abc123.mp4", [gs "720p", gs "360p"]⟩).1 =
          Except.error e) ∧
        (handle ⟨true, fun r => !(r == gs "360p"), true, true, true, true, none, none, [], false⟩
          ⟨gs "abc123", gs "u1", gs "t", gs "raw/u1/abc123.mp4", [gs "720p", gs "360p"]⟩).2.all
          isDownloadOrEncode = true) :=
  ⟨by decide,
    encode_failure_publishes_nothing
      ⟨true, fun r => !(r == gs "360p"), true, true, true, true, none, none, [], false⟩
      ⟨gs "abc123", gs "u1", gs "t", gs "raw/u1/abc123.mp4", [gs "720p", gs "360p"]⟩
      (by decide)⟩

/-- C7: an UploadEvent with an empty uploadId, userId or rawVideoPath is
rejected with the "missing required fields" error before any effect — no
workspace download, no storage access, an empty effect trace — and that
error is classified permanent (spec section 7), not retryable. -/
theorem missing_fields_rejected_permanently (env : TEnv) (evt : UploadEvent)
    (h : evt.uploadId = [] ∨ evt.userId = [] ∨ evt.rawVideoPath = []) :
    handle env evt = (Except.error (gs "missing required fields"), []) ∧
      isPermanentError (gs "missing required fields") = true := by
  constructor
  · simp [handle, h]
  · decide

/-- C7 witness: the rejection at a concrete event with an empty userId. -/
theorem missing_fields_rejected_witness :
    ((⟨gs "abc123", [], gs "t", gs "raw/u1/abc123.mp4", []⟩ : UploadEvent).uploadId = [] ∨
        (⟨gs "abc123", [], gs "t", gs "raw/u1/abc123.mp4", []⟩ : UploadEvent).userId = [] ∨
        (⟨gs "abc123", [], gs "t", gs "raw/u1/abc123.mp4", []⟩ : UploadEvent).rawVideoPath = []) ∧
      (handle ⟨true, fun _ => true, true, true, true, true, none, none, [], false⟩
          ⟨gs "abc123", [], gs "t", gs "raw/u1/abc123.mp4", []⟩ =
          (Except.error (gs "missing required fields"), []) ∧
        isPermanentError (gs "missing required fields") = true) :=
  ⟨by decide,
    missing_fields_rejected_permanently
      ⟨true, fun _ => true, true, true, true, true, none, none, [], false⟩
      ⟨gs "abc123", [], gs "t", gs "raw/u1/abc123.mp4", []⟩ (by decide)⟩

/-- C8: on every run the output paths are the deterministic function of the
event's userId and uploadId — every HLS tree upload in the trace targets
exactly `hls/<userId>/<uploadId>`, every thumbnail upload targets exactly
`thumbnails/<userId>/<uploadId>.jpg`, and every published completion event
carries the master URL built from `hls/<userId>/<uploadId>/master.m3u8` — so
re-running a job for the same event writes exactly the same paths. -/
theorem output_paths_deterministic (env : TEnv) (evt : UploadEvent) :
    (handle env evt).2.all (pathsDeterministic env evt) = true := by
  by_cases hv : evt.uploadId = [] ∨ evt.userId = [] ∨ evt.rawVideoPath = []
  · simp [handle, hv]
  · by_cases hd : env.downloadOk
    · rcases hq : runLadder env (ladderOf evt) with ⟨fo, evs⟩
      have hevs : evs.all (pathsDeterministic env evt) = true := by
        have h0 := runLadder_events env (pathsDeterministic env evt) (fun _ => rfl) (ladderOf evt)
        rw [hq] at h0; exact h0
      cases fo with
      | some f =>
        simp [handle, hv, hd, hq, List.all_append, hevs, pathsDeterministic]
      | none =>
        by_cases hu : env.uploadDirOk
        · by_cases hg : env.thumbGenOk <;> by_cases ht : env.thumbUploadOk <;>
            by_cases hb : env.publishOk <;>
            simp [handle, hv, hd, hq, hu, hg, ht, hb, List.all_append, hevs,
              pathsDeterministic]
        · have hu' : env.uploadDirOk = false := by simpa using hu
          simp [handle, hv, hd, hq, hu', List.all_append, hevs, pathsDeterministic]
    · have hd' : env.downloadOk = false := by simpa using hd
      simp [handle, hv, hd', pathsDeterministic]

/-- C9: when the pipeline succeeds up to the thumbnail step but thumbnail
generation or thumbnail upload fails, the job still completes: the handler
returns ok and publishes a completion event with ready set and an empty
thumbnail URL — the thumbnail failure is never propagated as a job error. -/
theorem thumbnail_failure_nonfatal (env : TEnv) (evt : UploadEvent)
    (hv : ¬(evt.uploadId = [] ∨ evt.userId = [] ∨ evt.rawVideoPath = []))
    (hd : env.downloadOk = true)
    (henc : ∀ r ∈ ladderOf evt, env.encodeOk r = true)
    (hup : env.uploadDirOk = true)
    (hth : env.thumbGenOk = false ∨ env.thumbUploadOk = false)
    (hpub : env.publishOk = true) :
    (handle env evt).1 = Except.ok () ∧
      Ev.publish (completionOf env evt) ∈ (handle env evt).2 := by
  have hq := runLadder_all_ok env (ladderOf evt) henc
  by_cases hg : env.thumbGenOk
  · have ht : env.thumbUploadOk = false := by
      rcases hth with h | h
      · exact absurd h (by simp [hg])
      · exact h
    constructor <;> simp [handle, hv, hd, hq, hup, hpub, hg, ht, completionOf]
  · have hg' : env.thumbGenOk = false := by simpa using hg
    constructor <;> simp [handle, hv, hd, hq, hup, hpub, hg', completionOf]

/-- C9 witness: thumbnail generation fails in a concrete successful run;
the completion event is still published, ready, with an empty thumbnail. -/
theorem thumbnail_failure_nonfatal_witness :
    (¬((⟨gs "abc123", gs "u1", gs "t", gs "raw/u1/abc123.mp4", [gs "720p"]⟩ : UploadEvent).uploadId = [] ∨
        (⟨gs "abc123", gs "u1", gs "t", gs "raw/u1/abc123.mp4", [gs "720p"]⟩ : UploadEvent).userId = [] ∨
        (⟨gs "abc123", gs "u1", gs "t", gs "raw/u1/abc123.mp4", [gs "720p"]⟩ : UploadEvent).rawVideoPath = [])) ∧
      (∀ r ∈ ladderOf ⟨gs "abc123", gs "u1", gs "t", gs "raw/u1/abc123.mp4", [gs "720p"]⟩,
        (⟨true, fun _ => true, true, false, true, true, none, none, [], false⟩ : TEnv).encodeOk r = true) ∧
      ((⟨true, fun _ => true, true, false, true, true, none, none, [], false⟩ : TEnv).thumbGenOk = false ∨
        (⟨true, fun _ => true, true, false, true, true, none, none, [], false⟩ : TEnv).thumbUploadOk = false) ∧
      ((handle ⟨true, fun _ => true, true, false, true, true, none, none, [], false⟩
          ⟨gs "abc123", gs "u1", gs "t", gs "raw/u1/abc123.mp4", [gs "720p"]⟩).1 = Except.ok () ∧
        Ev.publish (completionOf ⟨true, fun _ => true, true, false, true, true, none, none, [], false⟩
            ⟨gs "abc123", gs "u1", gs "t", gs "raw/u1/abc123.mp4", [gs "720p"]⟩) ∈
          (handle ⟨true, fun _ => true, true, false, true, true, none, none, [], false⟩
            ⟨gs "abc123", gs "u1", gs "t", gs "raw/u1/abc123.mp4", [gs "720p"]⟩).2) :=
  ⟨by decide, by decide, by decide,
    thumbnail_failure_nonfatal
      ⟨true, fun _ => true, true, false, true, true, none, none, [], false⟩
      ⟨gs "abc123", gs "u1", gs "t", gs "raw/u1/abc123.mp4", [gs "720p"]⟩
      (by decide) (by decide) (by decide) (by decide) (by decide) (by decide)⟩

/-- C10 (amended): the GetMaster rewrite step is the identity on every body
whose lines matching the rewrite pattern are exactly `<label>/index.m3u8`
with a literal dot (in particular on every genuine master manifest); because
the pattern's unescaped dot matches any character, bodies with a different
character in that position are rewritten and the step is not the identity in
general. -/
theorem rewriteMaster_identity_on_true_manifests (body : GoStr)
    (h : ∀ l ∈ splitChar '\n' body, lineMatches l = true →
      ∃ lab ∈ renditionLabels, l = lab ++ gs "/index.m3u8") :
    rewriteMaster body = body := by
  unfold rewriteMaster
  have hfix : ∀ l ∈ splitChar '\n' body, replaceLine l = l := by
    intro l hl
    by_cases hm : lineMatches l
    · obtain ⟨lab, hlab, hleq⟩ := h l hl hm
      subst hleq
      simp only [renditionLabels, List.mem_cons, List.not_mem_nil, or_false] at hlab
      rcases hlab with h1 | h1 | h1 | h1 <;> subst h1 <;> decide
    · simp [replaceLine, hm]
  have hmap : (splitChar '\n' body).map replaceLine = splitChar '\n' body := by
    rw [List.map_congr_left hfix, List.map_id']
  rw [hmap]
  show List.intercalate (gs "\n") (List.splitOn '\n' body) = body
  rw [show gs "\n" = ['\n'] from rfl]
  exact List.intercalate_splitOn body '\n'

/-- C10 witness: the rewrite leaves a genuine two-rendition master manifest
byte-for-byte unchanged. -/
theorem rewriteMaster_identity_witness :
    (∀ l ∈ splitChar '\n' (gs "#EXTM3U\n720p/index.m3u8\n360p/index.m3u8\n"),
        lineMatches l = true → ∃ lab ∈ renditionLabels, l = lab ++ gs "/index.m3u8") ∧
      rewriteMaster (gs "#EXTM3U\n720p/index.m3u8\n360p/index.m3u8\n") =
        gs "#EXTM3U\n720p/index.m3u8\n360p/index.m3u8\n" :=
  ⟨by decide,
    rewriteMaster_identity_on_true_manifests
      (gs "#EXTM3U\n720p/index.m3u8\n360p/index.m3u8\n") (by decide)⟩

/-- C10 counterexample: the pattern's unescaped dot makes the line
`720p/indexXm3u8` match, and the rewrite changes it to `720p/index.m3u8`, so
the served body is not byte-for-byte equal to the fetched body for every
fetched body, refuting the claim as stated. -/
theorem rewriteMaster_not_identity :
    rewriteMaster (gs "720p/indexXm3u8") ≠ gs "720p/indexXm3u8" := by
  decide
